import Mathlib

/-!
Verification of the recurrence-resolution and schedule-materialization
engine of the weekly-planner application (`src/app.py`, `src/config.py`).

Calendar dates are embedded as their proleptic-Gregorian ordinal
(`date.toordinal()` in the source's date library): ordinal 1 is
0001-01-01, a Monday, and date arithmetic with day deltas is integer
arithmetic on ordinals.  Times of day are minutes after midnight.
Durations (decimal hours in the source) are embedded as rationals.
A value that the source represents as a raised exception caught by the
caller is embedded as `Option.none`.
-/

namespace WeeklyPlanner

/-! ### String primitives

Kernel-reducible models of the string operations the source uses
(`.lower()`, `.upper()`, `.strip()`, `.split(sep)`, `.startswith`,
`int(...)` digit parsing, `sep.join`), all working on the character list. -/

/-- Python `s.lower()`. -/
def lowerStr (s : String) : String := ⟨s.data.map Char.toLower⟩

/-- Python `s.upper()`. -/
def upperStr (s : String) : String := ⟨s.data.map Char.toUpper⟩

/-- Python `s.strip()`: drop leading and trailing whitespace. -/
def trimStr (s : String) : String :=
  ⟨((s.data.dropWhile Char.isWhitespace).reverse.dropWhile Char.isWhitespace).reverse⟩

/-- Python `s.startswith(p)` on strings. -/
def strStartsWith (s p : String) : Bool := p.data.isPrefixOf s.data

/-- Auxiliary for `splitStr`. -/
def splitOnCharAux (c : Char) : List Char → List Char → List (List Char)
  | [], acc => [acc.reverse]
  | x :: xs, acc =>
    if x == c then acc.reverse :: splitOnCharAux c xs []
    else splitOnCharAux c xs (x :: acc)

/-- Python `s.split(c)` for a one-character separator. -/
def splitStr (s : String) (c : Char) : List String :=
  (splitOnCharAux c s.data []).map String.mk

/-- Parse a nonempty all-digit character list as a natural number
(the digit-string acceptance of the source's time parser). -/
def digitsToNat (l : List Char) : Option Nat :=
  if l ≠ [] ∧ l.all Char.isDigit then
    some (l.foldl (fun n c => n * 10 + (c.toNat - 48)) 0)
  else none

/-- Python `sep.join(parts)`. -/
def joinWith (sep : String) : List String → String
  | [] => ""
  | [x] => x
  | x :: y :: xs => x ++ sep ++ joinWith sep (y :: xs)

/-- Code-point lexicographic comparison of character lists: the string
comparison Python's `<` (and hence `sorted` and the DataFrame sort)
uses. -/
def charListLt : List Char → List Char → Bool
  | [], [] => false
  | [], _ :: _ => true
  | _ :: _, [] => false
  | a :: as, b :: bs =>
    if a.toNat < b.toNat then true
    else if b.toNat < a.toNat then false
    else charListLt as bs

/-- Python `s < t` on strings. -/
def strLt (s t : String) : Bool := charListLt s.data t.data

/-- Python `s <= t` on strings (total-order complement of `strLt`). -/
def strLe (s t : String) : Bool := !strLt t s

theorem charListLt_irrefl : ∀ l : List Char, charListLt l l = false
  | [] => rfl
  | a :: as => by simp [charListLt, charListLt_irrefl as]

theorem charListLt_trans : ∀ l m n : List Char,
    charListLt l m = true → charListLt m n = true → charListLt l n = true := by
  intro l
  induction l with
  | nil =>
    intro m n h₁ h₂
    cases m with
    | nil => cases n <;> simp_all [charListLt]
    | cons b bs => cases n with
      | nil => simp [charListLt] at h₂
      | cons c cs => rfl
  | cons a as ih =>
    intro m n h₁ h₂
    cases m with
    | nil => simp [charListLt] at h₁
    | cons b bs =>
      cases n with
      | nil => simp [charListLt] at h₂
      | cons c cs =>
        simp only [charListLt] at h₁ h₂ ⊢
        split_ifs at h₁ h₂ ⊢ <;>
          first
            | rfl
            | omega
            | (exact ih bs cs h₁ h₂)

theorem charListLt_conn : ∀ l m : List Char,
    charListLt l m = false → charListLt m l = false → l = m := by
  intro l
  induction l with
  | nil =>
    intro m h₁ _
    cases m with
    | nil => rfl
    | cons b bs => simp [charListLt] at h₁
  | cons a as ih =>
    intro m h₁ h₂
    cases m with
    | nil => simp [charListLt] at h₂
    | cons b bs =>
      simp only [charListLt] at h₁ h₂
      split_ifs at h₁ h₂ <;> try omega
      have hab : a = b := by
        have h : a.toNat = b.toNat := by omega
        exact Char.ofNat_toNat a ▸ Char.ofNat_toNat b ▸ congrArg Char.ofNat h
      exact hab ▸ congrArg (a :: ·) (ih bs h₁ h₂)

/-! ### Dates -/

/-- True for Gregorian leap years (the source date library's rule). -/
def isLeapYear (y : Nat) : Bool :=
  (y % 4 == 0 && y % 100 != 0) || (y % 400 == 0)

/-- Cumulative day count before month `m` (1-based) in year `y`. -/
def daysBeforeMonth (y m : Nat) : Nat :=
  let base := [0, 31, 59, 90, 120, 151, 181, 212, 243, 273, 304, 334].getD (m - 1) 0
  if 2 < m && isLeapYear y then base + 1 else base

/-- Proleptic-Gregorian ordinal of the date `y-m-d` (`date(y,m,d).toordinal()`):
ordinal 1 is 0001-01-01. -/
def toOrdinal (y m d : Nat) : Int :=
  let p : Int := (y : Int) - 1
  365 * p + p / 4 - p / 100 + p / 400 + (daysBeforeMonth y m : Int) + (d : Int)

/-- Python `date.fromordinal(d).weekday()`: Monday = 0 .. Sunday = 6. -/
def pyWeekday (d : Int) : Int := (d + 6) % 7

/-- Lower-case day names as produced by `strftime('%A').lower()`, Monday first. -/
def dayNames : List String :=
  ["monday", "tuesday", "wednesday", "thursday", "friday", "saturday", "sunday"]

/-- The value `target_date.strftime('%A').lower()` as a function of the ordinal. -/
def dayNameOf (d : Int) : String := dayNames.getD (pyWeekday d).toNat ""

/-- The Monday of the week containing ordinal `d`
(`d - timedelta(days=d.weekday())` in `should_show_activity_on_date`). -/
def mondayOf (d : Int) : Int := d - (d + 6) % 7

/-- One row of the activities DataFrame (an `EventRecord`).  `days_of_week`
is `none` when the stored value is not a list (the source guards every
access with `isinstance(..., list)`); `calendar_source` is `none` when the
column is missing or the value is NaN. -/
structure Activity where
  kid_name : String
  activity : String
  time : String
  duration : ℚ
  frequency : String
  days_of_week : Option (List String)
  start_date : Int
  end_date : Int
  address : String
  pickup_driver : String
  return_driver : String
  calendar_source : Option String
deriving DecidableEq

/-- The predicate `should_show_activity_on_date(activity, target_date, day_name)`
(src/app.py lines 1451-1504): date-range containment, day-of-week
membership, and bi-weekly parity anchored to the Monday of the week
containing `start_date`. -/
def should_show_activity_on_date (a : Activity) (target_date : Int)
    (day_name : Option String) : Bool :=
  if a.start_date ≤ target_date ∧ target_date ≤ a.end_date then
    let dn := day_name.getD (dayNameOf target_date)
    let days := a.days_of_week.getD []
    if (days.map lowerStr).contains dn then
      if lowerStr a.frequency == "bi-weekly" then
        let start_date_monday := mondayOf a.start_date
        let target_date_monday := mondayOf target_date
        let days_since_start_monday := target_date_monday - start_date_monday
        if days_since_start_monday < 0 then false
        else decide ((days_since_start_monday / 7) % 2 = 0)
      else true
    else false
  else false

/-- The bi-weekly record of property P3: starts Monday 2025-01-06,
occurs on Mondays, valid through 2025-12-31. -/
def p3Record : Activity :=
  { kid_name := "Ariella"
    activity := "Biweekly club"
    time := "09:00"
    duration := 1
    frequency := "bi-weekly"
    days_of_week := some ["monday"]
    start_date := toOrdinal 2025 1 6
    end_date := toOrdinal 2025 12 31
    address := "somewhere"
    pickup_driver := "Mom"
    return_driver := "Dad"
    calendar_source := some "Family" }

/-! ### End-time resolution -/

/-- The time-string cleaning at the head of `calculate_activity_end_time`:
strip, and if the string has more than one `':'`, keep only the first two
`':'`-separated parts. -/
def cleanTimeStr (s : String) : String :=
  let t := trimStr s
  if 1 < t.data.count ':' then
    (splitStr t ':').getD 0 "" ++ ":" ++ (splitStr t ':').getD 1 ""
  else t

/-- The parse `pd.to_datetime(s).time()` on an `HH:MM` string, as minutes after
midnight; `none` models the parse exception for a malformed time. -/
def parseHHMM (s : String) : Option Nat :=
  match splitStr s ':' with
  | [h, m] =>
    match digitsToNat h.data, digitsToNat m.data with
    | some hn, some mn => if hn < 24 ∧ mn < 60 then some (hn * 60 + mn) else none
    | _, _ => none
  | _ => none

/-- Two-digit zero-padded decimal rendering used by `strftime('%H:%M')`. -/
def pad2 (n : Nat) : String := if n < 10 then "0" ++ toString n else toString n

/-- The rendering `time.strftime('%H:%M')` for a minutes-after-midnight value. -/
def formatHHMM (m : Nat) : String := pad2 (m / 60) ++ ":" ++ pad2 (m % 60)

/-- Python `int(...)`: truncation toward zero of a rational. -/
def intTrunc (q : ℚ) : Int := if 0 ≤ q then ⌊q⌋ else ⌈q⌉

/-- The minutes `int(duration_hours * 60)`, computed on the rational's components so
that it evaluates by kernel reduction; `durationMinutes_eq` below
identifies it with `intTrunc (q * 60)`. -/
def durationMinutes (q : ℚ) : Int :=
  if 0 ≤ q.num then q.num * 60 / (q.den : Int)
  else -(-(q.num * 60) / (q.den : Int))

/-- A row of the minimum-day event source (`school_events.csv`). -/
structure SchoolEvent where
  kid_name : String
  activity : String
  start_date : Int
deriving DecidableEq

/-- A school's minimum-day rule from `SCHOOL_MINIMUM_DAY_CONFIG`:
a name matcher (the compiled case-insensitive regex search, embedded as a
Boolean predicate on the event name; `none` models a missing/falsy
`pattern`) and the per-weekday end-time table. -/
structure SchoolRule where
  pattern : Option (String → Bool)
  end_times : List (String × String)

/-- The configuration data `SCHOOL_KID_ASSOCIATIONS` (school → kids) and
`SCHOOL_MINIMUM_DAY_CONFIG` (school → rule), in dict insertion order. -/
structure MinDayConfig where
  associations : List (String × List String)
  minDay : List (String × SchoolRule)

/-- First-match association-list lookup (Python dict `.get`). -/
def lookupStr {α : Type} (k : String) : List (String × α) → Option α
  | [] => none
  | (k', v) :: t => if k' == k then some v else lookupStr k t

/-- The resolver `get_minimum_day_end_time(kid_name, activity_date, day_of_week)`
(src/app.py lines 1231-1305), with the configuration tables and the
cached school-events source passed explicitly.  Returns the override
end-time string, or `none` when no minimum-day override applies. -/
def get_minimum_day_end_time (cfg : MinDayConfig) (events : List SchoolEvent)
    (kid_name : String) (activity_date : Int) (day_of_week : String) :
    Option String :=
  match cfg.associations.find? (fun p => p.2.contains kid_name) with
  | none => none
  | some (kid_school, _) =>
    match lookupStr kid_school cfg.minDay with
    | none => none
    | some school_config =>
      match school_config.pattern with
      | none => none
      | some pat =>
        let kid_events := events.filter
          (fun e => e.kid_name == kid_name && e.start_date == activity_date)
        match kid_events.find? (fun e => pat e.activity) with
        | none => none
        | some _ =>
          match lookupStr (lowerStr day_of_week) school_config.end_times with
          | some end_time => if end_time.data.isEmpty then none else some end_time
          | none => none

/-- The resolver `calculate_activity_end_time(activity, activity_date, day_name)`
(src/app.py lines 1506-1551): naive end = start time plus
`int(duration*60)` minutes, taken as a time of day; School-origin
activities (or activities literally named "school") are then subject to
the minimum-day override.  `none` models the exception raised for an
unparseable start time. -/
def calculate_activity_end_time (cfg : MinDayConfig) (events : List SchoolEvent)
    (a : Activity) (activity_date : Int) (day_name : Option String) :
    Option String :=
  match parseHHMM (cleanTimeStr a.time) with
  | none => none
  | some start_m =>
    let duration_minutes : Int := durationMinutes a.duration
    let end_time := formatHHMM (((start_m : Int) + duration_minutes) % 1440).toNat
    let calendar_source := a.calendar_source.getD "Family"
    let is_school := calendar_source == "School" || lowerStr a.activity == "school"
    if is_school then
      let dn := day_name.getD (dayNameOf activity_date)
      match get_minimum_day_end_time cfg events a.kid_name activity_date dn with
      | some t => some t
      | none => some end_time
    else some end_time

/-- An empty configuration, for records with no override source at all. -/
def cfg0 : MinDayConfig := { associations := [], minDay := [] }

/-! ### Schedule materialization (`create_weekly_schedule`) -/

/-- The predicate `is_activity_active_in_week` (src/app.py lines 1445-1449). -/
def is_activity_active_in_week (activity_start activity_end week_start week_end : Int) :
    Bool :=
  decide (activity_start ≤ week_end) && decide (activity_end ≥ week_start)

/-- The day lookup of src/app.py line 1644; `none` models the `ValueError`
for an unknown day name (caught, the day is skipped). -/
def dayIndexOf (day : String) : Option Nat :=
  dayNames.findIdx? (fun s => s == lowerStr day)

/-- The inline weekday abbreviation of `create_weekly_schedule`
(src/app.py lines 1665-1669): `'Th'` for Thursday, else the first letter
uppercased — so both Saturday and Sunday map to `'S'`. -/
def dayAbbrev (day : String) : String :=
  if lowerStr day == "thursday" then "Th" else upperStr ⟨day.data.take 1⟩

/-- One row of the weekly-schedule DataFrame, with the column values
`create_weekly_schedule` stores. -/
structure Row where
  day : String
  kid : String
  activityCell : String
  calendar_source : String
  time : String
  address : String
  pickup : String
  ret : String
  start_date : Int
  end_date : Int
deriving DecidableEq

/-- The body of `create_weekly_schedule`'s per-day loop (src/app.py lines
1641-1699): compute the concrete date of `day` in the week, gate on
`should_show_activity_on_date`, resolve the end time, and build the row.
`none` models every caught per-day exception (unknown day name,
unparseable time, empty participant name). -/
def rowForDay (cfg : MinDayConfig) (events : List SchoolEvent) (week_start : Int)
    (a : Activity) (day : String) : Option Row :=
  match dayIndexOf day with
  | none => none
  | some day_index =>
    if should_show_activity_on_date a (week_start + (day_index : Int))
        (some (lowerStr day)) then
      match calculate_activity_end_time cfg events a (week_start + (day_index : Int))
          (some (lowerStr day)) with
      | none => none
      | some end_time =>
        match parseHHMM (cleanTimeStr a.time) with
        | none => none
        | some start_m =>
          if a.kid_name.data.isEmpty then none
          else
            some { day := dayAbbrev day
                   kid := upperStr ⟨a.kid_name.data.take 1⟩
                   activityCell :=
                     "<span class=\"calendar-" ++ lowerStr (a.calendar_source.getD "Family")
                       ++ "\">" ++ a.activity ++ "</span>"
                   calendar_source := lowerStr (a.calendar_source.getD "Family")
                   time := formatHHMM start_m ++ "-" ++ end_time
                   address := a.address
                   pickup := a.pickup_driver
                   ret := a.return_driver
                   start_date := a.start_date
                   end_date := a.end_date }
    else none

/-- Concatenation of the per-record row lists over the record collection. -/
def concatMapRows (f : Activity → List Row) : List Activity → List Row
  | [] => []
  | a :: t => f a ++ concatMapRows f t

/-- The `Start_Time` sort key recomputed from the `Time` column:
`Time.split('-')[0]` parsed as `HH:MM`. -/
def rowStartMin (r : Row) : Option Nat := parseHHMM ((splitStr r.time '-').getD 0 "")

/-- The sort relation of `weekly_df.sort_values(['Day', 'Start_Time'])`:
lexicographic on the day-abbreviation string, then on the parsed start
time. -/
def rowLE (r s : Row) : Prop :=
  strLt r.day s.day = true ∨
    (r.day = s.day ∧ (rowStartMin r).getD 0 ≤ (rowStartMin s).getD 0)

/-- The fallback sort relation of `weekly_df.sort_values(['Day'])`. -/
def dayLE (r s : Row) : Prop := strLe r.day s.day = true

instance : DecidableRel rowLE := fun r s =>
  inferInstanceAs (Decidable (strLt r.day s.day = true ∨
    (r.day = s.day ∧ (rowStartMin r).getD 0 ≤ (rowStartMin s).getD 0)))

instance : DecidableRel dayLE := fun r s =>
  inferInstanceAs (Decidable (strLe r.day s.day = true))

/-- The sorting step of `create_weekly_schedule` (src/app.py lines
1710-1722): sort by `(Day, Start_Time)`; if extracting a start time fails
for some row, fall back to sorting by `Day` alone. -/
def sortRows (rs : List Row) : List Row :=
  if rs.all (fun r => (rowStartMin r).isSome) then List.insertionSort rowLE rs
  else List.insertionSort dayLE rs

/-- The rows one record contributes (src/app.py lines 1613-1703): nothing
unless the record is active in the week, else one row per accepted listed
day. -/
def rowsForActivity (cfg : MinDayConfig) (events : List SchoolEvent)
    (week_start week_end : Int) (a : Activity) : List Row :=
  if is_activity_active_in_week a.start_date a.end_date week_start week_end then
    (a.days_of_week.getD []).filterMap (fun day => rowForDay cfg events week_start a day)
  else []

/-- The materializer `create_weekly_schedule(df, week_start, week_end)` (src/app.py lines
1605-1736): for each record active in the week, for each of its listed
days, emit a row when the occurrence predicate accepts, then sort. -/
def create_weekly_schedule (cfg : MinDayConfig) (events : List SchoolEvent)
    (df : List Activity) (week_start week_end : Int) : List Row :=
  sortRows (concatMapRows (rowsForActivity cfg events week_start week_end) df)

example : toOrdinal 2025 1 6 = 739257 := by decide
example : pyWeekday (toOrdinal 2025 1 6) = 0 := by decide
example : should_show_activity_on_date p3Record (toOrdinal 2025 1 6) none = true := by decide
example : should_show_activity_on_date p3Record (toOrdinal 2025 1 13) none = false := by decide
example : should_show_activity_on_date p3Record (toOrdinal 2025 1 20) none = true := by decide

example : parseHHMM "09:00" = some 540 := by decide
example : parseHHMM "not a time" = none := by decide
example : cleanTimeStr " 10:30:15 " = "10:30" := by decide
example : formatHHMM 600 = "10:00" := by decide
example : durationMinutes (⟨3, 2, by decide, by decide⟩ : ℚ) = 90 := by decide
example : durationMinutes (25 : ℚ) = 1500 := by decide
example :
    calculate_activity_end_time cfg0 [] p3Record (toOrdinal 2025 1 6) none =
      some "10:00" := by decide

/-! ### The monitor-view occurrence merger (`display_day_activities`) -/

/-- One entry of the `day_activities` list built by `display_day_activities`
(src/app.py lines 2135-2144). -/
structure DayActivity where
  time : String
  activity : String
  calendar_source : String
  calendar_color : String
  kid : String
  address : String
  pickup : String
  ret : String
deriving DecidableEq

/-- The field comparison of the merge loop (src/app.py lines 2162-2166):
`time`, `activity`, `address`, `pickup` and `return` must agree — the
`kid`, `calendar_source` and `calendar_color` fields are not compared. -/
def sameExceptKid (x y : DayActivity) : Bool :=
  x.time == y.time && x.activity == y.activity && x.address == y.address &&
    x.pickup == y.pickup && x.ret == y.ret

/-- Python `sorted` on a list of strings. -/
def sortedStrings (l : List String) : List String :=
  List.insertionSort (fun a b : String => strLe a b = true) l

/-- Emit the rows for one completed group: a single element passes through,
a larger group becomes one entry with the sorted kid names joined by
`" + "`, all other fields from the group's first member. -/
def flushGroup (first : DayActivity) (rest : List DayActivity) : List DayActivity :=
  match rest with
  | [] => [first]
  | _ :: _ =>
    [{ first with
        kid := joinWith " + " (sortedStrings ((first :: rest).map (fun x => x.kid))) }]

/-- The grouping loop of `display_day_activities` (src/app.py lines
2153-2192): each incoming entry is compared against the FIRST member of
the current group; on a match it joins the group, otherwise the group is
flushed and a new group starts. -/
def mergeRun (first : DayActivity) (rest : List DayActivity) :
    List DayActivity → List DayActivity
  | [] => flushGroup first rest
  | x :: xs =>
    if sameExceptKid x first then mergeRun first (rest ++ [x]) xs
    else flushGroup first rest ++ mergeRun x [] xs

/-- The occurrence merger of the monitor day view (src/app.py lines
2152-2192), applied to the time-sorted `day_activities` list. -/
def merge_day_activities : List DayActivity → List DayActivity
  | [] => []
  | [x] => [x]
  | x :: y :: xs => mergeRun x [] (y :: xs)

/-! ### The source combiner (`load_combined_data_for_display`) -/

/-- The sniffer `get_calendar_source(activity_name)` (src/app.py lines 17-34). -/
def get_calendar_source (activity_name : String) : String :=
  if strStartsWith (lowerStr activity_name) "school:" then "School"
  else if strStartsWith (lowerStr activity_name) "jewish:" then "Jewish"
  else "Family"

/-- The stripper `remove_calendar_prefix(activity_name)` (src/app.py lines 48-64): the
removal is case-sensitive and requires the space after the colon. -/
def remove_calendar_prefix (activity_name : String) : String :=
  if strStartsWith activity_name "School: " then ⟨activity_name.data.drop 8⟩
  else if strStartsWith activity_name "Jewish: " then ⟨activity_name.data.drop 8⟩
  else activity_name

/-- One source DataFrame handed to the combiner: its rows, and whether the
frame has a `calendar_source` column at all. -/
structure Frame where
  rows : List Activity
  hasCalendarSource : Bool

/-- The legacy-prefix mask of src/app.py line 1402:
`name.lower().startswith(('school:', 'jewish:'))`. -/
def hasLegacyMask (a : Activity) : Bool :=
  strStartsWith (lowerStr a.activity) "school:" ||
    strStartsWith (lowerStr a.activity) "jewish:"

/-- Src/app.py lines 1386-1395: if the frame has no `calendar_source`
column, add it with the source's default value. -/
def addDefaultSource (f : Frame) (default : String) : Frame :=
  if f.hasCalendarSource then f
  else { rows := f.rows.map (fun a => { a with calendar_source := some default })
         hasCalendarSource := true }

/-- Src/app.py lines 1397-1408, for one frame: when the `calendar_source`
column exists, only strip the legacy prefix from masked names; otherwise
(the backward-compatibility branch) infer `calendar_source` from the name
and strip the prefix. -/
def stripOrInfer (f : Frame) : Frame :=
  if f.hasCalendarSource then
    { f with rows := f.rows.map (fun a =>
        if hasLegacyMask a then { a with activity := remove_calendar_prefix a.activity }
        else a) }
  else
    { rows := f.rows.map (fun a =>
        { a with calendar_source := some (get_calendar_source a.activity)
                 activity := remove_calendar_prefix a.activity })
      hasCalendarSource := true }

/-- The source-combining steps of `load_combined_data_for_display`
(src/app.py lines 1377-1414): default-tag each frame, run the
prefix-stripping/backward-compatibility pass, and concatenate
activities ++ school ++ jewish. -/
def load_combined_data_for_display (activities school jewish : Frame) : List Activity :=
  (stripOrInfer (addDefaultSource activities "Family")).rows ++
    (stripOrInfer (addDefaultSource school "School")).rows ++
      (stripOrInfer (addDefaultSource jewish "Jewish")).rows

/-- A weekly Monday activity for Alice (09:00, one hour, valid all of 2025). -/
def mondayAct : Activity :=
  { kid_name := "Alice"
    activity := "Piano"
    time := "09:00"
    duration := 1
    frequency := "weekly"
    days_of_week := some ["monday"]
    start_date := toOrdinal 2025 1 1
    end_date := toOrdinal 2025 12 31
    address := "1 Main St"
    pickup_driver := "Mom"
    return_driver := "Dad"
    calendar_source := some "Family" }

/-- A weekly Friday activity for Bob (09:00, one hour, valid all of 2025). -/
def fridayAct : Activity :=
  { mondayAct with kid_name := "Bob", activity := "Chess", days_of_week := some ["friday"] }

/-- A weekly Sunday activity (09:00, one hour, valid all of 2025). -/
def sundayAct : Activity :=
  { mondayAct with kid_name := "Carol", activity := "Soccer", days_of_week := some ["sunday"] }

/-- Monday 2025-06-02, the start of the scenario week. -/
def ws0 : Int := toOrdinal 2025 6 2

example : pyWeekday ws0 = 0 := by decide
example :
    (create_weekly_schedule cfg0 [] [mondayAct, fridayAct] ws0 (ws0 + 6)).map
        (fun r => (r.day, r.kid, r.time)) =
      [("F", "B", "09:00-10:00"), ("M", "A", "09:00-10:00")] := by decide
example :
    (create_weekly_schedule cfg0 [] [sundayAct] ws0 (ws0 + 6)).map (fun r => r.day) =
      ["S"] := by decide

/-! ### Infrastructure lemmas -/

theorem charListLt_asymm {l m : List Char} (h : charListLt l m = true) :
    charListLt m l = false := by
  by_contra hc
  have h2 : charListLt m l = true := by
    cases hml : charListLt m l
    · exact absurd hml hc
    · rfl
  have h3 := charListLt_trans l m l h h2
  rw [charListLt_irrefl l] at h3
  cases h3

theorem strings_eq_of_data_eq {s t : String} (h : s.data = t.data) : s = t :=
  congrArg String.mk h

instance : IsTrans Row rowLE :=
  ⟨by
    intro r s t hrs hst
    rcases hrs with h1 | ⟨e1, n1⟩ <;> rcases hst with h2 | ⟨e2, n2⟩
    · exact Or.inl (charListLt_trans _ _ _ h1 h2)
    · exact Or.inl (e2 ▸ h1)
    · exact Or.inl (e1 ▸ h2)
    · exact Or.inr ⟨e1.trans e2, n1.trans n2⟩⟩

instance : IsTotal Row rowLE :=
  ⟨by
    intro r s
    cases h1 : strLt r.day s.day
    · cases h2 : strLt s.day r.day
      · have hd : r.day = s.day := strings_eq_of_data_eq (charListLt_conn _ _ h1 h2)
        rcases Nat.le_total ((rowStartMin r).getD 0) ((rowStartMin s).getD 0) with hn | hn
        · exact Or.inl (Or.inr ⟨hd, hn⟩)
        · exact Or.inr (Or.inr ⟨hd.symm, hn⟩)
      · exact Or.inr (Or.inl h2)
    · exact Or.inl (Or.inl h1)⟩

theorem dayLE_iff {r s : Row} : dayLE r s ↔ strLt s.day r.day = false := by
  unfold dayLE strLe
  cases strLt s.day r.day <;> simp

instance : IsTrans Row dayLE :=
  ⟨by
    intro r s t h1 h2
    rw [dayLE_iff] at h1 h2 ⊢
    by_contra hc
    have htr : charListLt t.day.data r.day.data = true := by
      cases hx : strLt t.day r.day
      · exact absurd hx hc
      · exact hx
    cases hst : strLt s.day t.day
    · have he : t.day.data = s.day.data := charListLt_conn _ _ h2 hst
      rw [he] at htr
      rw [show strLt s.day r.day = charListLt s.day.data r.day.data from rfl, htr] at h1
      cases h1
    · have h4 := charListLt_trans s.day.data t.day.data r.day.data hst htr
      rw [show strLt s.day r.day = charListLt s.day.data r.day.data from rfl, h4] at h1
      cases h1⟩

instance : IsTotal Row dayLE :=
  ⟨by
    intro r s
    rw [dayLE_iff, dayLE_iff]
    cases h : strLt s.day r.day
    · exact Or.inl rfl
    · exact Or.inr (charListLt_asymm h)⟩

theorem rowLE_dayLE {r s : Row} (h : rowLE r s) : dayLE r s := by
  rw [dayLE_iff]
  rcases h with h | ⟨e, _⟩
  · exact charListLt_asymm h
  · rw [e]
    exact charListLt_irrefl _

theorem sortRows_perm (rs : List Row) : List.Perm (sortRows rs) rs := by
  unfold sortRows
  split
  · exact List.perm_insertionSort _ _
  · exact List.perm_insertionSort _ _

theorem sorted_day_sortRows (rs : List Row) : List.Sorted dayLE (sortRows rs) := by
  unfold sortRows
  split
  · exact (List.sorted_insertionSort rowLE rs).imp (fun h => rowLE_dayLE h)
  · exact List.sorted_insertionSort dayLE rs

theorem sorted_row_sortRows (rs : List Row)
    (h : ∀ r ∈ sortRows rs, (rowStartMin r).isSome) :
    List.Sorted rowLE (sortRows rs) := by
  unfold sortRows at h ⊢
  by_cases hall : rs.all (fun r => (rowStartMin r).isSome) = true
  · rw [if_pos hall]
    exact List.sorted_insertionSort rowLE rs
  · rw [if_neg hall] at h
    refine absurd (List.all_eq_true.mpr fun r hr => ?_) hall
    exact h r ((List.mem_insertionSort _).mpr hr)

theorem concatMapRows_append (f : Activity → List Row) (l₁ l₂ : List Activity) :
    concatMapRows f (l₁ ++ l₂) = concatMapRows f l₁ ++ concatMapRows f l₂ := by
  induction l₁ with
  | nil => rfl
  | cons a t ih => simp [concatMapRows, ih]

theorem mem_concatMapRows {f : Activity → List Row} {l : List Activity} {r : Row} :
    r ∈ concatMapRows f l ↔ ∃ a ∈ l, r ∈ f a := by
  induction l with
  | nil => simp [concatMapRows]
  | cons a t ih => simp [concatMapRows, ih]

theorem calculate_none_of_badtime {cfg : MinDayConfig} {events : List SchoolEvent}
    {a : Activity} {d : Int} {dn : Option String}
    (h : parseHHMM (cleanTimeStr a.time) = none) :
    calculate_activity_end_time cfg events a d dn = none := by
  unfold calculate_activity_end_time
  rw [h]

theorem rowForDay_none_of_badtime {cfg : MinDayConfig} {events : List SchoolEvent}
    {ws : Int} {a : Activity} {day : String}
    (h : parseHHMM (cleanTimeStr a.time) = none) :
    rowForDay cfg events ws a day = none := by
  unfold rowForDay
  cases hidx : dayIndexOf day with
  | none => rfl
  | some idx =>
    dsimp only
    rw [@calculate_none_of_badtime cfg events a (ws + (idx : Int))
      (some (lowerStr day)) h]
    split <;> rfl

theorem rowForDay_fields {cfg : MinDayConfig} {events : List SchoolEvent}
    {ws : Int} {a : Activity} {day : String} {r : Row}
    (h : rowForDay cfg events ws a day = some r) :
    r.day = dayAbbrev day ∧ r.kid = upperStr ⟨a.kid_name.data.take 1⟩ := by
  unfold rowForDay at h
  repeat' split at h
  all_goals first
    | (exact Option.noConfusion h)
    | (injection h with h2; subst h2; exact ⟨rfl, rfl⟩)

theorem parseHHMM_lt {s : String} {m : Nat} (h : parseHHMM s = some m) : m < 1440 := by
  unfold parseHHMM at h
  repeat' split at h
  all_goals first
    | (exact Option.noConfusion h)
    | (injection h with h2; omega)

theorem durationMinutes_eq {q : ℚ} (h : 0 ≤ q) :
    durationMinutes q = intTrunc (q * 60) := by
  have hnum : 0 ≤ q.num := Rat.num_nonneg.mpr h
  have h60 : (0 : ℚ) ≤ q * 60 := by positivity
  unfold durationMinutes intTrunc
  rw [if_pos hnum, if_pos h60]
  have hden : ((q.den : ℕ) : ℚ) ≠ 0 := Nat.cast_ne_zero.mpr q.den_nz
  have hqd : q * ((q.den : ℕ) : ℚ) = ((q.num : ℤ) : ℚ) := by
    nth_rewrite 1 [← Rat.num_div_den q]
    exact div_mul_cancel₀ _ hden
  have hq : (q * 60 : ℚ) = ((q.num * 60 : ℤ) : ℚ) / ((q.den : ℕ) : ℚ) := by
    rw [eq_div_iff hden]
    push_cast
    calc q * 60 * ((q.den : ℕ) : ℚ) = q * ((q.den : ℕ) : ℚ) * 60 := by ring
      _ = ((q.num : ℤ) : ℚ) * 60 := by rw [hqd]
  rw [hq, Rat.floor_intCast_div_natCast]

/-! ### Claim theorems -/

/-- The spec's weekday-to-ordinal map (Monday=0 .. Sunday=6), applied to
the day abbreviations the rows carry; stated from the spec's words, used
only to refute the claimed ordering. -/
def specDayOrd (s : String) : Nat :=
  if s = "M" then 0
  else if s = "T" then 1
  else if s = "W" then 2
  else if s = "Th" then 3
  else if s = "F" then 4
  else if s = "S" then 5
  else 6

/-- C1, counterexample: `create_weekly_schedule` sorts the `Day` column as
a plain string, so a Friday row ('F') sorts before a Monday row ('M');
the resulting weekday-ordinal sequence [4, 0] is not nondecreasing, so the
output is not sorted by the Monday=0..Sunday=6 ordinal as claimed. -/
theorem C1_counterexample :
    (create_weekly_schedule cfg0 [] [mondayAct, fridayAct] ws0 (ws0 + 6)).map
        (fun r => specDayOrd r.day) = [4, 0] ∧
      ¬ List.Sorted (· ≤ ·)
        ((create_weekly_schedule cfg0 [] [mondayAct, fridayAct] ws0 (ws0 + 6)).map
          (fun r => specDayOrd r.day)) := by
  decide

/-- C1, amended: the rows returned by `create_weekly_schedule` are sorted
by the day-abbreviation STRING in lexicographic string order (under which
'F' < 'M' < 'S' < 'T' < 'Th' < 'W'), not by the Monday=0..Sunday=6
weekday ordinal; within equal day abbreviations they are ordered by start
time whenever every row's `Time` column parses (which holds for all rows
the materializer itself formats). -/
theorem C1_sorted_by_abbrev_then_time (cfg : MinDayConfig) (events : List SchoolEvent)
    (df : List Activity) (week_start week_end : Int) :
    List.Sorted dayLE (create_weekly_schedule cfg events df week_start week_end) ∧
      ((∀ r ∈ create_weekly_schedule cfg events df week_start week_end,
          (rowStartMin r).isSome) →
        List.Sorted rowLE (create_weekly_schedule cfg events df week_start week_end)) := by
  unfold create_weekly_schedule
  exact ⟨sorted_day_sortRows _, fun h => sorted_row_sortRows _ h⟩

/-- C1, witness: on a concrete two-record week the output is sorted by
(day-abbreviation string, start time). -/
theorem C1_witness :
    List.Sorted rowLE (create_weekly_schedule cfg0 [] [mondayAct, fridayAct] ws0 (ws0 + 6)) :=
  (C1_sorted_by_abbrev_then_time cfg0 [] [mondayAct, fridayAct] ws0 (ws0 + 6)).2 (by decide)

/-- C2: for a bi-weekly record, on a date inside the valid range whose
weekday is listed, the predicate returns true exactly when the Monday of
the target week is at or after the Monday of the start week and the whole
number of weeks between the two Mondays is even; and the P3 instances
(start Monday 2025-01-06: true on 01-06, false on 01-13, true on 01-20)
hold. -/
theorem C2_biweekly_parity (a : Activity) (t : Int)
    (hr : a.start_date ≤ t ∧ t ≤ a.end_date)
    (hd : ((a.days_of_week.getD []).map lowerStr).contains (dayNameOf t) = true)
    (hf : lowerStr a.frequency = "bi-weekly") :
    (should_show_activity_on_date a t none =
      decide (mondayOf a.start_date ≤ mondayOf t ∧
        ((mondayOf t - mondayOf a.start_date) / 7) % 2 = 0)) ∧
      (should_show_activity_on_date p3Record (toOrdinal 2025 1 6) none = true ∧
        should_show_activity_on_date p3Record (toOrdinal 2025 1 13) none = false ∧
        should_show_activity_on_date p3Record (toOrdinal 2025 1 20) none = true) := by
  refine ⟨?_, by decide, by decide, by decide⟩
  unfold should_show_activity_on_date
  rw [if_pos hr]
  simp only [Option.getD_none, hd, hf, beq_self_eq_true, if_true]
  by_cases hlt : mondayOf t - mondayOf a.start_date < 0
  · rw [if_pos hlt]
    symm
    simp only [decide_eq_false_iff_not]
    rintro ⟨h1, _⟩
    omega
  · rw [if_neg hlt]
    rw [decide_eq_decide]
    constructor
    · intro h
      exact ⟨by omega, h⟩
    · rintro ⟨_, h⟩
      exact h

/-- C2, witness: the theorem applied to the P3 record on 2025-01-06. -/
theorem C2_witness :
    should_show_activity_on_date p3Record (toOrdinal 2025 1 6) none =
      decide (mondayOf p3Record.start_date ≤ mondayOf (toOrdinal 2025 1 6) ∧
        ((mondayOf (toOrdinal 2025 1 6) - mondayOf p3Record.start_date) / 7) % 2 = 0) :=
  (C2_biweekly_parity p3Record (toOrdinal 2025 1 6) ⟨by decide, by decide⟩ (by decide)
    (by decide)).1

theorem get_minimum_day_some {cfg : MinDayConfig} {events : List SchoolEvent}
    {kid : String} {d : Int} {dn school : String} {kids : List String}
    {rule : SchoolRule} {pat : String → Bool} {t : String}
    (hassoc : cfg.associations.find? (fun p => p.2.contains kid) = some (school, kids))
    (hrule : lookupStr school cfg.minDay = some rule)
    (hpat : rule.pattern = some pat)
    (hev : ∃ e ∈ events, (e.kid_name == kid && e.start_date == d) = true ∧
      pat e.activity = true)
    (htab : lookupStr (lowerStr dn) rule.end_times = some t)
    (ht : t.data ≠ []) :
    get_minimum_day_end_time cfg events kid d dn = some t := by
  unfold get_minimum_day_end_time
  rw [hassoc]
  dsimp only
  rw [hrule]
  dsimp only
  rw [hpat]
  dsimp only
  have hfind : ((events.filter (fun e => e.kid_name == kid && e.start_date == d)).find?
      (fun e => pat e.activity)).isSome := by
    rw [List.find?_isSome]
    obtain ⟨e, he, hcond, hp⟩ := hev
    exact ⟨e, List.mem_filter.mpr ⟨he, hcond⟩, hp⟩
  obtain ⟨e', he'⟩ := Option.isSome_iff_exists.mp hfind
  rw [he']
  dsimp only
  rw [htab]
  dsimp only
  rw [if_neg (by simpa [List.isEmpty_iff] using ht)]

/-- C3: for a School-origin record whose participant is associated (by the
first matching association entry) with a school that has a minimum-day
rule, when the school-events source contains an event for that participant
on the queried date whose name matches the rule's pattern and the rule's
per-weekday table has a nonempty entry for the queried weekday,
`calculate_activity_end_time` returns the table's override time instead of
startTime + duration. -/
theorem C3_minimum_day_override (cfg : MinDayConfig) (events : List SchoolEvent)
    (a : Activity) (d : Int) (dn : String) (sm : Nat) (school : String)
    (kids : List String) (rule : SchoolRule) (pat : String → Bool) (t : String)
    (hparse : parseHHMM (cleanTimeStr a.time) = some sm)
    (hsrc : a.calendar_source = some "School")
    (hassoc : cfg.associations.find? (fun p => p.2.contains a.kid_name) =
      some (school, kids))
    (hrule : lookupStr school cfg.minDay = some rule)
    (hpat : rule.pattern = some pat)
    (hev : ∃ e ∈ events, (e.kid_name == a.kid_name && e.start_date == d) = true ∧
      pat e.activity = true)
    (htab : lookupStr (lowerStr dn) rule.end_times = some t)
    (ht : t.data ≠ []) :
    calculate_activity_end_time cfg events a d (some dn) = some t := by
  unfold calculate_activity_end_time
  rw [hparse]
  dsimp only
  rw [hsrc]
  simp only [Option.getD_some, beq_self_eq_true, Bool.true_or, if_true]
  rw [get_minimum_day_some hassoc hrule hpat hev htab ht]

/-- The minimum-day rule of the P7 instance: matches event names starting
with "Minimum Day" and overrides Friday end times to 12:45. -/
def ariellaRule : SchoolRule :=
  { pattern := some (fun s => strStartsWith s "Minimum Day")
    end_times := [("friday", "12:45")] }

/-- Configuration associating Ariella with a school carrying `ariellaRule`. -/
def ariellaCfg : MinDayConfig :=
  { associations := [("Hillview", ["Ariella"])]
    minDay := [("Hillview", ariellaRule)] }

/-- A minimum-day school event for Ariella on Friday 2025-06-06. -/
def minDayEvent : SchoolEvent :=
  { kid_name := "Ariella", activity := "Minimum Day Schedule"
    start_date := toOrdinal 2025 6 6 }

/-- Ariella's School record: 08:30 start, 6.5 h duration (so a normal
15:00 end). -/
def ariellaSchool : Activity :=
  { mondayAct with
      kid_name := "Ariella"
      activity := "School"
      time := "08:30"
      duration := ⟨13, 2, by decide, by decide⟩
      days_of_week := some ["friday"]
      calendar_source := some "School" }

/-- C3, witness: the P7 instance — the normal 15:00 end is overridden to
12:45 on the minimum-day Friday. -/
theorem C3_witness :
    calculate_activity_end_time ariellaCfg [minDayEvent] ariellaSchool (toOrdinal 2025 6 6)
      (some "friday") = some "12:45" :=
  C3_minimum_day_override ariellaCfg [minDayEvent] ariellaSchool (toOrdinal 2025 6 6)
    "friday" 510 "Hillview" ["Ariella"] ariellaRule
    (fun s => strStartsWith s "Minimum Day") "12:45" (by decide) rfl rfl rfl rfl
    ⟨minDayEvent, by decide, by decide, by decide⟩ (by decide) (by decide)

/-- The three occurrences of the C4 counterexample: all at the same time;
the first and third agree on every compared field and differ only in the
participant, but are separated by a different middle occurrence. -/
def actAlice : DayActivity :=
  { time := "10:00-11:00", activity := "Soccer", calendar_source := "family"
    calendar_color := "#000000", kid := "Alice", address := "1 Main St"
    pickup := "Mom", ret := "Dad" }

/-- A different activity at the same time, separating the two Soccer rows. -/
def actCarol : DayActivity := { actAlice with kid := "Carol", activity := "Tennis" }

/-- Identical to `actAlice` except for the participant. -/
def actBob : DayActivity := { actAlice with kid := "Bob" }

/-- C4, counterexample: the monitor-view merger only groups CONSECUTIVE
entries (each compared to the first member of the current run), so two
occurrences identical except for the participant that are separated by a
different occurrence at the same time are NOT merged: the output still has
all three rows unchanged, though the first and third form a group under
the claimed grouping. -/
theorem C4_counterexample :
    sameExceptKid actBob actAlice = true ∧ actAlice.kid ≠ actBob.kid ∧
      merge_day_activities [actAlice, actCarol, actBob] =
        [actAlice, actCarol, actBob] := by
  decide

/-- C4, amended: the monitor-view merger merges only consecutive runs of
occurrences agreeing with the run's first member on time, activity,
address, pickup and return (participant and calendar fields are not
compared); two ADJACENT occurrences identical except for the participant
merge into one occurrence carrying the lexicographically sorted
participants joined with " + ". -/
theorem C4_adjacent_merge (a b : DayActivity) (h : sameExceptKid b a = true) :
    merge_day_activities [a, b] =
      [{ a with kid := joinWith " + " (sortedStrings [a.kid, b.kid]) }] := by
  simp [merge_day_activities, mergeRun, flushGroup, h]

/-- C4, witness: the P5 instance — Alice's and Bob's otherwise identical
occurrences merge into one with participant "Alice + Bob". -/
theorem C4_witness :
    merge_day_activities [actAlice, actBob] =
      [{ actAlice with kid := "Alice + Bob" }] := by
  rw [C4_adjacent_merge actAlice actBob (by decide)]
  decide

/-- A manual record carrying the legacy "Jewish: " prefix with no
`calendar_source` column. -/
def hanukkahRow : Activity :=
  { mondayAct with activity := "Jewish: Hanukkah", calendar_source := none }

/-- C5: evaluation at the failing input.  A record named "Jewish: Hanukkah"
in an activities frame without a `calendar_source` column comes out of the
combiner with the prefix stripped but with `calendar_source = "Family"`
(the frame default), NOT with the origin "Jewish" inferred from the
prefix: the backward-compatibility inference branch (src/app.py lines
1405-1408) is unreachable because lines 1388-1395 always add the column
first, contradicting the code's own comment at lines 1397-1398. -/
theorem C5_prefix_origin_not_inferred :
    (load_combined_data_for_display { rows := [hanukkahRow], hasCalendarSource := false }
        { rows := [], hasCalendarSource := true }
        { rows := [], hasCalendarSource := true }).map
        (fun a => (a.activity, a.calendar_source)) = [("Hanukkah", some "Family")] := by
  decide

/-- C6: a record whose time string does not parse contributes nothing and
aborts nothing — materializing a collection containing it returns exactly
the schedule of the collection without it. -/
theorem C6_malformed_record_isolation (cfg : MinDayConfig) (events : List SchoolEvent)
    (xs ys : List Activity) (bad : Activity)
    (h : parseHHMM (cleanTimeStr bad.time) = none) (week_start week_end : Int) :
    create_weekly_schedule cfg events (xs ++ bad :: ys) week_start week_end =
      create_weekly_schedule cfg events (xs ++ ys) week_start week_end := by
  unfold create_weekly_schedule
  congr 1
  have hbad : rowsForActivity cfg events week_start week_end bad = [] := by
    unfold rowsForActivity
    split
    · exact List.filterMap_eq_nil_iff.mpr fun day _ => rowForDay_none_of_badtime h
    · rfl
  rw [concatMapRows_append, concatMapRows_append]
  simp only [concatMapRows]
  rw [hbad]
  simp

/-- A record with an unparseable time string. -/
def badAct : Activity := { mondayAct with kid_name := "Zed", time := "not a time" }

/-- C6, witness: with the malformed record in the middle, the schedule
equals the one computed without it. -/
theorem C6_witness :
    create_weekly_schedule cfg0 [] ([mondayAct] ++ badAct :: [fridayAct]) ws0 (ws0 + 6) =
      create_weekly_schedule cfg0 [] ([mondayAct] ++ [fridayAct]) ws0 (ws0 + 6) :=
  C6_malformed_record_isolation cfg0 [] [mondayAct] [fridayAct] badAct (by decide) ws0
    (ws0 + 6)

/-- C7, counterexample: a Sunday occurrence carries the Day abbreviation
"S" (`day[0].upper()`, identical to Saturday's), not "Su" as claimed. -/
theorem C7_counterexample :
    (create_weekly_schedule cfg0 [] [sundayAct] ws0 (ws0 + 6)).map (fun r => r.day) =
        ["S"] ∧
      ("S" : String) ≠ "Su" := by
  decide

/-- C7, amended: every emitted row's Day field is `dayAbbrev` of one of the
originating record's listed days and its Kid field is the participant's
first letter uppercased, where `dayAbbrev` realizes the scheme
M, T, W, Th, F, S, S — Sunday abbreviates to "S" (same as Saturday), not
"Su". -/
theorem C7_day_kid_abbreviations (cfg : MinDayConfig) (events : List SchoolEvent)
    (df : List Activity) (week_start week_end : Int) :
    (∀ r ∈ create_weekly_schedule cfg events df week_start week_end,
      ∃ a ∈ df, ∃ day ∈ a.days_of_week.getD [],
        r.day = dayAbbrev day ∧ r.kid = upperStr ⟨a.kid_name.data.take 1⟩) ∧
      dayNames.map dayAbbrev = ["M", "T", "W", "Th", "F", "S", "S"] := by
  constructor
  · intro r hr
    unfold create_weekly_schedule at hr
    have hr2 : r ∈ concatMapRows (rowsForActivity cfg events week_start week_end) df :=
      (sortRows_perm _).mem_iff.mp hr
    obtain ⟨a, ha, hra⟩ := mem_concatMapRows.mp hr2
    unfold rowsForActivity at hra
    split at hra
    · obtain ⟨day, hday, hsome⟩ := List.mem_filterMap.mp hra
      obtain ⟨h1, h2⟩ := rowForDay_fields hsome
      exact ⟨a, ha, day, hday, h1, h2⟩
    · cases hra
  · decide

/-- The single row the Sunday record produces. -/
def sundayRow : Row :=
  { day := "S", kid := "C"
    activityCell := "<span class=\"calendar-family\">Soccer</span>"
    calendar_source := "family", time := "09:00-10:00", address := "1 Main St"
    pickup := "Mom", ret := "Dad"
    start_date := toOrdinal 2025 1 1, end_date := toOrdinal 2025 12 31 }

/-- C7, witness: the theorem applied to the concrete Sunday row. -/
theorem C7_witness :
    ∃ a ∈ [sundayAct], ∃ day ∈ a.days_of_week.getD [],
      sundayRow.day = dayAbbrev day ∧
        sundayRow.kid = upperStr ⟨a.kid_name.data.take 1⟩ :=
  (C7_day_kid_abbreviations cfg0 [] [sundayAct] ws0 (ws0 + 6)).1 sundayRow (by decide)

/-- C8: a record whose `days_of_week` is not a list is treated as having
an empty day set — the predicate raises nothing (it is total) and returns
false on every date. -/
theorem C8_nonlist_days (a : Activity) (h : a.days_of_week = none) (t : Int)
    (dn : Option String) : should_show_activity_on_date a t dn = false := by
  unfold should_show_activity_on_date
  rw [h]
  split
  · rfl
  · rfl

/-- A record whose `days_of_week` value is not a list. -/
def nonListAct : Activity := { mondayAct with days_of_week := none }

/-- C8, witness. -/
theorem C8_witness : should_show_activity_on_date nonListAct ws0 none = false :=
  C8_nonlist_days nonListAct rfl ws0 none

/-- A Family record starting 10:00 with a 25-hour duration. -/
def overnightAct : Activity := { mondayAct with time := "10:00", duration := 25 }

/-- C9, counterexample: start 10:00 with duration 25 h crosses midnight
(600 + 1500 >= 1440 minutes) yet the returned end time-of-day 11:00
(660 min) is NOT earlier than the start 10:00 (600 min), refuting the
claim's "end earlier than start whenever start + duration crosses
midnight". -/
theorem C9_counterexample :
    calculate_activity_end_time cfg0 [] overnightAct ws0 (some "monday") = some "11:00" ∧
      parseHHMM (cleanTimeStr overnightAct.time) = some 600 ∧
      durationMinutes overnightAct.duration = 1500 ∧
      1440 ≤ (600 : Int) + 1500 ∧ parseHHMM "11:00" = some 660 ∧ ¬ (660 < 600) := by
  decide

/-- C9, amended: for a record with parseable start time, non-negative
duration and no minimum-day override in play (non-School origin and not
named "school"), the end time is startTime + int(duration*60) minutes
reduced modulo 24 hours; and when the duration is below 24 hours and
start + duration crosses midnight, the resulting end time-of-day is
earlier than the start time. -/
theorem C9_end_time_mod24 (cfg : MinDayConfig) (events : List SchoolEvent) (a : Activity)
    (d : Int) (dn : Option String) (sm : Nat)
    (hparse : parseHHMM (cleanTimeStr a.time) = some sm)
    (hdur : 0 ≤ a.duration)
    (hns : a.calendar_source.getD "Family" ≠ "School" ∧ lowerStr a.activity ≠ "school") :
    calculate_activity_end_time cfg events a d dn =
      some (formatHHMM (((sm : Int) + intTrunc (a.duration * 60)) % 1440).toNat) ∧
      (intTrunc (a.duration * 60) < 1440 →
        1440 ≤ (sm : Int) + intTrunc (a.duration * 60) →
        ((sm : Int) + intTrunc (a.duration * 60)) % 1440 < (sm : Int)) := by
  have hdm := durationMinutes_eq hdur
  have hsm := parseHHMM_lt hparse
  constructor
  · unfold calculate_activity_end_time
    rw [hparse]
    dsimp only
    rw [hdm]
    have h1 : (a.calendar_source.getD "Family" == "School") = false := by
      rw [beq_eq_false_iff_ne]
      exact hns.1
    have h2 : (lowerStr a.activity == "school") = false := by
      rw [beq_eq_false_iff_ne]
      exact hns.2
    rw [h1, h2]
    simp
  · intro hlt hge
    omega

/-- C9, witness: the theorem applied to a concrete one-hour Family record. -/
theorem C9_witness :
    (0 : ℚ) ≤ mondayAct.duration ∧
      (calculate_activity_end_time cfg0 [] mondayAct ws0 none =
        some (formatHHMM (((540 : Int) + intTrunc (mondayAct.duration * 60)) % 1440).toNat) ∧
        (intTrunc (mondayAct.duration * 60) < 1440 →
          1440 ≤ (540 : Int) + intTrunc (mondayAct.duration * 60) →
          ((540 : Int) + intTrunc (mondayAct.duration * 60)) % 1440 < (540 : Int))) :=
  ⟨zero_le_one,
    C9_end_time_mod24 cfg0 [] mondayAct ws0 none 540 (by decide) zero_le_one
      ⟨by decide, by decide⟩⟩

/-- C10: two bi-weekly records identical except for their start date, with
both start dates in the same Monday-aligned week, agree on every queried
date inside both valid ranges: the parity depends on the start date only
through the Monday of its week. -/
theorem C10_parity_start_week_invariance (a b : Activity) (t : Int) (dn : Option String)
    (hb : b = { a with start_date := b.start_date })
    (hf : lowerStr a.frequency = "bi-weekly")
    (hweek : mondayOf a.start_date = mondayOf b.start_date)
    (hra : a.start_date ≤ t ∧ t ≤ a.end_date)
    (hrb : b.start_date ≤ t ∧ t ≤ b.end_date)
    (hd : ((a.days_of_week.getD []).map lowerStr).contains (dn.getD (dayNameOf t)) = true) :
    should_show_activity_on_date a t dn = should_show_activity_on_date b t dn := by
  have hend : b.end_date = a.end_date := by rw [hb]
  have hdays : b.days_of_week = a.days_of_week := by rw [hb]
  have hfreq : b.frequency = a.frequency := by rw [hb]
  unfold should_show_activity_on_date
  rw [if_pos hra, if_pos hrb]
  rw [hdays, hfreq, ← hweek]

/-- A bi-weekly record identical to `p3Record` except that it starts on the
Wednesday of the same week. -/
def p3Wednesday : Activity := { p3Record with start_date := toOrdinal 2025 1 8 }

/-- C10, witness: the Monday-starting and Wednesday-starting records agree
on 2025-01-20. -/
theorem C10_witness :
    should_show_activity_on_date p3Record (toOrdinal 2025 1 20) none =
      should_show_activity_on_date p3Wednesday (toOrdinal 2025 1 20) none :=
  C10_parity_start_week_invariance p3Record p3Wednesday (toOrdinal 2025 1 20) none rfl
    (by decide) (by decide) (by decide) (by decide) (by decide)

end WeeklyPlanner
